import Mathlib

/-!
Formal model of the position-ledger logic of `app.py` (台股雲端戰情室 V6.8):
the sheet loading with column backfill, the fee/tax close computation, the
full/partial close (lot split), the identifier generation, the risk-status
loop and the persistence write, together with theorems about them.

Column names of the sheet, used throughout:
ID, 日期 (date / exit date once closed), 買入日期 (open date), 策略 (strategy),
代號 (symbol: numeric code plus free-text name), 買入價 (entry price),
止損價 (stop-loss), 股數 (share quantity), 狀態 (status: 持倉中 = open,
已平倉 = closed), 賣出價 (exit price), 損益 (net profit), 手續費折數
(commission discount, in tenths), 心得 (note).
-/

namespace StockJournal

/-- A cell value as returned by the sheet client (`sheet.get_all_records`):
either a string or a number. -/
inductive Cell where
  | str (s : String)
  | num (q : ℚ)
deriving DecidableEq, Repr

/-- Python `str(...)` / pandas `astype(str)` on a cell. -/
def Cell.asString : Cell → String
  | .str s => s
  | .num q => toString q

/-- Blankness test used by the source: the regex `^\s*$` at load time and
`str(x).strip() == ""` at close time both accept exactly the strings whose
characters are all whitespace. -/
def strBlank (s : String) : Bool := s.toList.all Char.isWhitespace

/-- Value of a run of decimal digit characters. -/
def digitsVal (cs : List Char) : ℕ :=
  cs.foldl (fun a c => 10 * a + (c.toNat - 48)) 0

/-- Parse a non-empty run of decimal digits. -/
def parseDigits (cs : List Char) : Option ℕ :=
  if cs ≠ [] ∧ cs.all Char.isDigit then some (digitsVal cs) else none

/-- Strip leading and trailing whitespace from a character list. -/
def trimChars (cs : List Char) : List Char :=
  ((cs.dropWhile Char.isWhitespace).reverse.dropWhile Char.isWhitespace).reverse

/-- Decimal-number parsing as performed by `pd.to_numeric` on a string:
surrounding whitespace ignored, optional sign, integer part, optional
fractional part; anything else is not a number. -/
def parseNum (s : String) : Option ℚ :=
  let cs := trimChars s.toList
  let sgn : ℚ := match cs with
    | '-' :: _ => -1
    | _ => 1
  let body : List Char := match cs with
    | '-' :: r => r
    | '+' :: r => r
    | r => r
  let ip := body.takeWhile (fun c => c ≠ '.')
  let rest := body.dropWhile (fun c => c ≠ '.')
  match rest with
  | [] => (parseDigits ip).map (fun n => sgn * n)
  | _ :: fp =>
    if fp.contains '.' then none
    else
      match parseDigits ip, parseDigits fp with
      | some i, some f => some (sgn * ((i : ℚ) + (f : ℚ) / ((10 : ℚ) ^ fp.length)))
      | _, _ => none

/-- `pd.to_numeric(col, errors='coerce')` on one cell: numbers pass through,
numeric-looking strings are parsed, everything else becomes missing. -/
def toNumeric : Cell → Option ℚ
  | .num q => some q
  | .str s => parseNum s

/-- Python `int(...)` on a number: truncation toward zero. -/
def truncQ (q : ℚ) : ℤ := if q < 0 then -⌊-q⌋ else ⌊q⌋

/-- One ledger row as produced by `load_data`. -/
structure Row where
  id : String
  date : Cell
  buyDate : Cell
  strategy : Cell
  symbol : Cell
  buyPrice : ℚ
  stopLoss : ℚ
  shares : ℚ
  status : Cell
  sellPrice : Cell
  profit : Cell
  discount : ℚ
  note : Cell
deriving DecidableEq, Repr

/-- A raw table as returned by `ReadAll` (`sheet.get_all_records`): the
header names the columns present, each row maps a present column name to
its cell. -/
structure Table where
  header : List String
  rows : List (String → Cell)

/-- Reading a column from a raw row: a column absent from the header is
backfilled with the blank string (`df[col] = ""`, source lines 53–55). -/
def getcol (t : Table) (r : String → Cell) (c : String) : Cell :=
  if c ∈ t.header then r c else .str ""

/-- `load_data` (source lines 42–70), per row: missing columns backfilled
with the blank string, ID rendered as a string, a blank 買入日期 replaced
by the row's 日期 (lines 60–62), numeric columns coerced with default 0
for 買入價/止損價/股數 and default 3.0 for 手續費折數 (lines 64–67);
代號, 策略, 狀態, 賣出價, 損益 and 心得 are taken as stored. -/
def load_row (t : Table) (r : String → Cell) : Row :=
  let get := getcol t r
  let dateCell := get "日期"
  let rawBuy := get "買入日期"
  { id := (get "ID").asString
    date := dateCell
    buyDate := if strBlank rawBuy.asString then dateCell else rawBuy
    strategy := get "策略"
    symbol := get "代號"
    buyPrice := (toNumeric (get "買入價")).getD 0
    stopLoss := (toNumeric (get "止損價")).getD 0
    shares := (toNumeric (get "股數")).getD 0
    status := get "狀態"
    sellPrice := get "賣出價"
    profit := get "損益"
    discount := (toNumeric (get "手續費折數")).getD 3
    note := get "心得" }

/-- The in-memory snapshot produced by `load_data`. -/
def load_data (t : Table) : List Row := t.rows.map (load_row t)

/-- `str(int(time.time() * 1000))` (source lines 145 and 376): a freshly
generated identifier is the wall-clock millisecond count rendered in
decimal. -/
def new_id (now_ms : ℕ) : String := toString now_ms

/-- 建倉 (open position, source lines 142–165): prepend a new open row. -/
def open_position (df : List Row) (now_ms : ℕ) (date_str strategy stock_full_name : String)
    (buy_price stop_loss_price : ℚ) (volume : ℤ) (discount : ℚ) : List Row :=
  { id := new_id now_ms
    date := .str date_str
    buyDate := .str date_str
    strategy := .str strategy
    symbol := .str stock_full_name
    buyPrice := buy_price
    stopLoss := stop_loss_price
    shares := (volume : ℚ)
    status := .str "持倉中"
    sellPrice := .num 0
    profit := .num 0
    discount := discount
    note := .str "" } :: df

/-- Intermediate values of the final close computation. -/
structure CloseCalc where
  buy_cost_raw : ℚ
  buy_fee : ℤ
  sell_revenue : ℤ
  sell_fee : ℤ
  tax : ℤ
  net_profit : ℚ
deriving DecidableEq, Repr

/-- The final close (settle) computation, source lines 341–353: commission
0.1425% scaled by the discount (in tenths), with a one-unit minimum per
leg, and 0.3% transaction tax on the truncated sell revenue.  The buy
notional `buy_cost_raw` is used untruncated. -/
def close_calc (buy_p_val sell_price : ℚ) (sell_qty : ℤ) (disc10 : ℚ) : CloseCalc :=
  let d_rate := disc10 / 10
  let buy_cost_raw := buy_p_val * (sell_qty : ℚ)
  let buy_fee := max (truncQ (buy_cost_raw * 0.001425 * d_rate)) 1
  let sell_revenue := truncQ (sell_price * (sell_qty : ℚ))
  let sell_fee := max (truncQ ((sell_revenue : ℚ) * 0.001425 * d_rate)) 1
  let tax := truncQ ((sell_revenue : ℚ) * 0.003)
  { buy_cost_raw := buy_cost_raw
    buy_fee := buy_fee
    sell_revenue := sell_revenue
    sell_fee := sell_fee
    tax := tax
    net_profit := (sell_revenue : ℚ) - (sell_fee : ℚ) - (tax : ℚ) - (buy_cost_raw + (buy_fee : ℚ)) }

/-- The open-date backfill performed by the close operation (source lines
361–363): a missing or blank 買入日期 is replaced by the row's 日期. -/
def backfill_buy_date (target : Row) : Cell :=
  if strBlank target.buyDate.asString then target.date else target.buyDate

/-- Replace the first row satisfying `p` (the row at `idx_list[0]`). -/
def replace_first (p : Row → Bool) (new : Row) : List Row → List Row
  | [] => []
  | r :: rs => if p r then new :: rs else r :: replace_first p new rs

/-- Full-close branch (source lines 365–370): overwrite 狀態, 賣出價, 損益,
日期 (set to the sell date) and 買入日期 (backfilled) in place; 股數 and
心得 are untouched. -/
def full_close_row (target : Row) (sell_price : ℚ) (sell_qty : ℤ) (sell_date : String) : Row :=
  { target with
    status := .str "已平倉"
    sellPrice := .num sell_price
    profit := .num (close_calc target.buyPrice sell_price sell_qty target.discount).net_profit
    date := .str sell_date
    buyDate := backfill_buy_date target }

/-- The split-off closed record of a partial close (source lines 375–383):
a copy of the target row with a new ID, the sold quantity, exit fields
set, the backfilled open date, and the note cleared. -/
def split_close_row (target : Row) (nid : String) (sell_price : ℚ) (sell_qty : ℤ)
    (sell_date : String) : Row :=
  { target with
    id := nid
    shares := (sell_qty : ℚ)
    sellPrice := .num sell_price
    status := .str "已平倉"
    profit := .num (close_calc target.buyPrice sell_price sell_qty target.discount).net_profit
    date := .str sell_date
    buyDate := backfill_buy_date target
    note := .str "" }

/-- The close operation (`confirm_sell`, source lines 339–390) on a single
snapshot: settle with the target row's entry price and discount, find the
first row whose ID matches (the match is on ID alone), then either close
it in place (full close: the sold quantity equals the row's quantity) or
decrement it and prepend a split-off closed copy (partial close, lines
371–385).  `none` means the ID matched no row, in which case nothing is
written (line 358). -/
def confirm_sell (df : List Row) (selected_id : String) (sell_price : ℚ)
    (sell_qty : ℤ) (sell_date : String) (nid : String) : Option (List Row) :=
  match df.find? (fun r => r.id == selected_id) with
  | none => none
  | some target_row =>
    if sell_qty = truncQ target_row.shares then
      some (replace_first (fun r => r.id == selected_id)
        (full_close_row target_row sell_price sell_qty sell_date) df)
    else
      some (split_close_row target_row nid sell_price sell_qty sell_date ::
        replace_first (fun r => r.id == selected_id)
          { target_row with shares := ((truncQ target_row.shares - sell_qty : ℤ) : ℚ) } df)

/-- Leading-digit code extraction from a 代號 cell:
`str.extract(r'^(\d+)')` (source line 186). -/
def extract_code (s : String) : Option String :=
  let ds := s.toList.takeWhile Char.isDigit
  if ds = [] then none else some (String.mk ds)

/-- Current-price resolution (source line 209):
`realtime_prices.get(code, row["買入價"])` — the quote mapping keyed by the
extracted numeric code, with the entry price as fallback when the code is
absent (or could not be extracted at all). -/
def resolve_price (prices : List (String × ℚ)) (symbol : String) (buyPrice : ℚ) : ℚ :=
  match extract_code symbol with
  | none => buyPrice
  | some c => (prices.lookup c).getD buyPrice

/-- Intermediate values of the per-lot unrealized computation. -/
structure Unrealized where
  market_val : ℚ
  cost_val : ℚ
  buy_fee : ℤ
  sell_fee : ℤ
  tax : ℤ
  net_profit : ℚ
deriving DecidableEq, Repr

/-- The hypothetical-full-close computation of tab 1 (source lines
211–228): market value and cost are used untruncated, the fees and the
tax are truncated. -/
def unrealized (current_price qty buy_p disc10 : ℚ) : Unrealized :=
  let disc := disc10 / 10
  let market_val := current_price * qty
  let cost_val := buy_p * qty
  let buy_fee := max (truncQ (cost_val * 0.001425 * disc)) 1
  let sell_fee := max (truncQ (market_val * 0.001425 * disc)) 1
  let tax := truncQ (market_val * 0.003)
  { market_val := market_val
    cost_val := cost_val
    buy_fee := buy_fee
    sell_fee := sell_fee
    tax := tax
    net_profit := (market_val - (sell_fee : ℚ) - (tax : ℚ)) - (cost_val + (buy_fee : ℚ)) }

/-- The status column of tab 1 (source lines 233–237): 🔴 破止損 =
stop-loss breach, 💰 獲利中 = in profit, 🟢 = normal. -/
def status_signal (stop_loss current_price net_profit : ℚ) : String :=
  if stop_loss > 0 ∧ current_price < stop_loss then "🔴 破止損"
  else if net_profit > 0 then "💰 獲利中"
  else "🟢"

/-- One pass of the risk loop for a single open row (source lines
207–237): resolve the current price, compute the unrealized net profit,
derive the status signal. -/
def position_status (prices : List (String × ℚ)) (row : Row) : String :=
  let current_price := resolve_price prices row.symbol.asString row.buyPrice
  let u := unrealized current_price row.shares row.buyPrice row.discount
  status_signal row.stopLoss current_price u.net_profit

/-- One of the two store calls issued by `save_data`. -/
inductive StoreOp where
  | clear
  | update (rows : List Row)
deriving DecidableEq

/-- `save_data` (source lines 75–85) issues two separate network calls to
the store: `sheet.clear()` followed by `sheet.update(data)`. -/
def save_data_ops (df : List Row) : List StoreOp := [StoreOp.clear, StoreOp.update df]

/-- Effect of one store call on the persisted snapshot: `clear` empties
it, `update` replaces it wholesale. -/
def run_op (_s : List Row) (op : StoreOp) : List Row :=
  match op with
  | .clear => []
  | .update rows => rows

/-- The persisted snapshots the store passes through while a sequence of
calls executes from `init`: a `StoreUnavailable` failure between two calls
leaves the snapshot reached so far behind. -/
def store_states (init : List Row) (ops : List StoreOp) : List (List Row) :=
  ops.scanl run_op init

/-- The settle computation as claim C2 describes it: every monetary
intermediate value, the buy notional included, truncated to an integer
currency unit before the values are combined. -/
def settle_all_floored (buy_p sell_p : ℚ) (qty : ℤ) (disc10 : ℚ) : ℤ :=
  let d_rate := disc10 / 10
  let buyNotional := truncQ (buy_p * (qty : ℚ))
  let buy_fee := max (truncQ ((buyNotional : ℚ) * 0.001425 * d_rate)) 1
  let sellNotional := truncQ (sell_p * (qty : ℚ))
  let sell_fee := max (truncQ ((sellNotional : ℚ) * 0.001425 * d_rate)) 1
  let tax := truncQ ((sellNotional : ℚ) * 0.003)
  (sellNotional - sell_fee - tax) - (buyNotional + buy_fee)

/-! ### Helper lemmas -/

lemma parseNum_empty : parseNum "" = none := rfl

lemma toNumeric_blank : toNumeric (Cell.str "") = none := rfl

lemma truncQ_intCast (z : ℤ) : truncQ (z : ℚ) = z := by
  unfold truncQ
  split_ifs with h
  · rw [← Int.cast_neg, Int.floor_intCast]
    omega
  · exact Int.floor_intCast z

lemma replace_first_length (p : Row → Bool) (new : Row) :
    ∀ l : List Row, (replace_first p new l).length = l.length := by
  intro l
  induction l with
  | nil => rfl
  | cons r rs ih =>
    by_cases h : p r <;> simp [replace_first, h, ih]

lemma mem_replace_first (p : Row → Bool) (new r : Row) :
    ∀ l : List Row, r ∈ replace_first p new l → r = new ∨ r ∈ l := by
  intro l
  induction l with
  | nil => intro h; simp [replace_first] at h
  | cons a rs ih =>
    intro h
    by_cases ha : p a
    · simp only [replace_first, if_pos ha, List.mem_cons] at h
      rcases h with h | h
      · exact Or.inl h
      · exact Or.inr (List.mem_cons_of_mem a h)
    · simp only [replace_first, if_neg ha, List.mem_cons] at h
      rcases h with h | h
      · exact Or.inr (h ▸ List.mem_cons_self a rs)
      · rcases ih h with h' | h'
        · exact Or.inl h'
        · exact Or.inr (List.mem_cons_of_mem a h')

lemma countP_replace_first (p : Row → Bool) (new : Row) (hp : p new = true) :
    ∀ l : List Row, (replace_first p new l).countP p = l.countP p := by
  intro l
  induction l with
  | nil => rfl
  | cons a rs ih =>
    by_cases ha : p a
    · simp [replace_first, if_pos ha, List.countP_cons, hp, ha]
    · simp [replace_first, if_neg ha, List.countP_cons, ha, ih]

lemma filter_not_replace_first (p : Row → Bool) (new : Row) (hp : p new = true) :
    ∀ l : List Row,
      (replace_first p new l).filter (fun a => !(p a)) = l.filter (fun a => !(p a)) := by
  intro l
  induction l with
  | nil => rfl
  | cons a rs ih =>
    by_cases ha : p a
    · simp [replace_first, if_pos ha, List.filter_cons, hp, ha]
    · simp [replace_first, if_neg ha, List.filter_cons, ha, ih]

lemma backfill_buy_date_eq (target : Row)
    (hbd : strBlank target.buyDate.asString = true → target.buyDate = target.date) :
    backfill_buy_date target = target.buyDate := by
  unfold backfill_buy_date
  by_cases h : strBlank target.buyDate.asString
  · rw [if_pos h, (hbd h).symm]
  · rw [if_neg h]

/-! ### Decimal rendering of naturals is injective
(used for the identifier analysis) -/

/-- The character list of the decimal rendering of a natural number. -/
def repChars (n : ℕ) : List Char :=
  if n = 0 then ['0'] else ((Nat.digits 10 n).map Nat.digitChar).reverse

lemma repChars_zero : repChars 0 = ['0'] := by
  rw [repChars, if_pos rfl]

lemma repChars_small (n : ℕ) (hz : n ≠ 0) (hn10 : n < 10) :
    repChars n = [Nat.digitChar n] := by
  rw [repChars, if_neg hz, Nat.digits_of_lt 10 n hz hn10]
  simp

lemma repChars_ten_le (n : ℕ) (h10 : n / 10 ≠ 0) :
    repChars n = repChars (n / 10) ++ [Nat.digitChar (n % 10)] := by
  have hpos : n ≠ 0 := by omega
  rw [repChars, if_neg hpos,
    Nat.digits_def' (by norm_num : (1:ℕ) < 10) (Nat.pos_of_ne_zero hpos)]
  rw [repChars, if_neg h10]
  simp

lemma toDigitsCore_eq_repChars :
    ∀ (fuel n : ℕ) (ds : List Char), n < fuel →
      Nat.toDigitsCore 10 fuel n ds = repChars n ++ ds := by
  intro fuel
  induction fuel with
  | zero => intro n ds h; exact absurd h (Nat.not_lt_zero n)
  | succ f ih =>
    intro n ds h
    show (let d := Nat.digitChar (n % 10)
          let n' := n / 10
          if n' = 0 then d :: ds else Nat.toDigitsCore 10 f n' (d :: ds)) = repChars n ++ ds
    by_cases h0 : n / 10 = 0
    · have hn10 : n < 10 := by omega
      have hmod : n % 10 = n := Nat.mod_eq_of_lt hn10
      simp only [if_pos h0, hmod]
      by_cases hz : n = 0
      · subst hz
        rw [repChars_zero]
        rfl
      · rw [repChars_small n hz hn10]
        rfl
    · have hstep : n / 10 < f := by omega
      simp only [if_neg h0]
      rw [ih (n / 10) (Nat.digitChar (n % 10) :: ds) hstep, repChars_ten_le n h0]
      simp

lemma digitChar_inj_lt :
    ∀ a < 10, ∀ b < 10, Nat.digitChar a = Nat.digitChar b → a = b := by decide

lemma map_digitChar_inj :
    ∀ l1 l2 : List ℕ, (∀ x ∈ l1, x < 10) → (∀ x ∈ l2, x < 10) →
      l1.map Nat.digitChar = l2.map Nat.digitChar → l1 = l2 := by
  intro l1
  induction l1 with
  | nil =>
    intro l2 _ _ h
    cases l2 with
    | nil => rfl
    | cons b s => simp at h
  | cons a t ih =>
    intro l2 h1 h2 h
    cases l2 with
    | nil => simp at h
    | cons b s =>
      simp only [List.map_cons, List.cons.injEq] at h
      have ha : a < 10 := h1 a (List.mem_cons_self a t)
      have hb : b < 10 := h2 b (List.mem_cons_self b s)
      have hab : a = b := digitChar_inj_lt a ha b hb h.1
      have hts : t = s :=
        ih s (fun x hx => h1 x (List.mem_cons_of_mem a hx))
          (fun x hx => h2 x (List.mem_cons_of_mem b hx)) h.2
      rw [hab, hts]

lemma repChars_ne_zero_case (n : ℕ) (hn : n ≠ 0) : repChars n ≠ ['0'] := by
  intro hcontra
  rw [repChars, if_neg hn] at hcontra
  have hrev : (Nat.digits 10 n).map Nat.digitChar = ['0'] := by
    have := congrArg List.reverse hcontra
    simpa using this
  cases hds : Nat.digits 10 n with
  | nil => rw [hds] at hrev; simp at hrev
  | cons x xs =>
    rw [hds] at hrev
    simp only [List.map_cons, List.cons.injEq] at hrev
    obtain ⟨hx0, hxs⟩ := hrev
    have hxsnil : xs = [] := List.eq_nil_of_map_eq_nil hxs
    have hx10 : x < 10 :=
      Nat.digits_lt_base (by norm_num) (by rw [hds]; exact List.mem_cons_self x xs)
    have hx : x = 0 := digitChar_inj_lt x hx10 0 (by norm_num) (by simpa using hx0)
    have hzero : n = 0 := by
      have h' := Nat.ofDigits_digits 10 n
      rw [hds, hxsnil, hx] at h'
      simpa [Nat.ofDigits] using h'.symm
    exact hn hzero

lemma repChars_injective : ∀ m n : ℕ, repChars m = repChars n → m = n := by
  intro m n h
  by_cases hm : m = 0 <;> by_cases hn : n = 0
  · rw [hm, hn]
  · subst hm
    rw [repChars_zero] at h
    exact absurd h.symm (repChars_ne_zero_case n hn)
  · subst hn
    rw [repChars_zero] at h
    exact absurd h (repChars_ne_zero_case m hm)
  · rw [repChars, if_neg hm, repChars, if_neg hn] at h
    have hmap : (Nat.digits 10 m).map Nat.digitChar = (Nat.digits 10 n).map Nat.digitChar :=
      List.reverse_inj.mp h
    have hdig : Nat.digits 10 m = Nat.digits 10 n :=
      map_digitChar_inj _ _ (fun x hx => Nat.digits_lt_base (by norm_num) hx)
        (fun x hx => Nat.digits_lt_base (by norm_num) hx) hmap
    have := congrArg (Nat.ofDigits 10) hdig
    rwa [Nat.ofDigits_digits, Nat.ofDigits_digits] at this

lemma new_id_injective : ∀ t1 t2 : ℕ, new_id t1 = new_id t2 → t1 = t2 := by
  intro t1 t2 h
  have h1 : Nat.repr t1 = Nat.repr t2 := h
  rw [Nat.repr, Nat.repr, Nat.toDigits, Nat.toDigits,
    toDigitsCore_eq_repChars (t1 + 1) t1 [] (Nat.lt_succ_self t1),
    toDigitsCore_eq_repChars (t2 + 1) t2 [] (Nat.lt_succ_self t2)] at h1
  have h2 : repChars t1 ++ [] = repChars t2 ++ [] := by
    have := congrArg String.data h1
    simpa [List.asString] using this
  exact repChars_injective t1 t2 (by simpa using h2)

lemma close_calc_net (bp sp : ℚ) (sq : ℤ) (d : ℚ) :
    (close_calc bp sp sq d).net_profit =
      ((close_calc bp sp sq d).sell_revenue : ℚ) - ((close_calc bp sp sq d).sell_fee : ℚ) -
        ((close_calc bp sp sq d).tax : ℚ) -
        (bp * (sq : ℚ) + ((close_calc bp sp sq d).buy_fee : ℚ)) := rfl

lemma unrealized_net (cp q bp d : ℚ) :
    (unrealized cp q bp d).net_profit =
      (cp * q - ((unrealized cp q bp d).sell_fee : ℚ) - ((unrealized cp q bp d).tax : ℚ)) -
        (bp * q + ((unrealized cp q bp d).buy_fee : ℚ)) := rfl

/-! ### Sample data -/

/-- An open lot: 1000 shares bought at 100 with discount 2.8. -/
def lotC1 : Row :=
  { id := "1001", date := .str "2024-01-02", buyDate := .str "2024-01-02",
    strategy := .str "Alpha-Swing", symbol := .str "2330 台積電",
    buyPrice := 100, stopLoss := 0, shares := 1000, status := .str "持倉中",
    sellPrice := .str "", profit := .str "", discount := 2.8, note := .str "" }

/-! ### Claims -/

/-- C1: For the settle computation with entryPrice=100, exitPrice=110,
quantity=1000, discountRate=2.8, the close operation computes buyFee=39,
sellFee=43, tax=330, and realized net profit exactly 9588 — and closing a
matching open lot stores exactly that profit. -/
theorem C1_settle_example :
    (close_calc 100 110 1000 2.8).buy_fee = 39 ∧
    (close_calc 100 110 1000 2.8).sell_fee = 43 ∧
    (close_calc 100 110 1000 2.8).tax = 330 ∧
    (close_calc 100 110 1000 2.8).net_profit = 9588 ∧
    (confirm_sell [lotC1] "1001" 110 1000 "2024-03-01" "1002").map (List.map Row.profit) =
      some [Cell.num 9588] := by
  refine ⟨?_, ?_, ?_, ?_, ?_⟩ <;>
    norm_num [close_calc, truncQ, confirm_sell, lotC1, List.find?, replace_first,
      full_close_row, backfill_buy_date, strBlank, Cell.asString]

/-- C2 counterexample: closing one share bought at 100.5 and sold at 110
with discount 2.8 gives net profit 15/2 — a non-integer — while the
floor-every-intermediate computation the claim describes gives 8: the buy
notional enters the combination untruncated. -/
theorem C2_counterexample :
    (close_calc 100.5 110 1 2.8).net_profit = 15 / 2 ∧
    ((settle_all_floored 100.5 110 1 2.8 : ℤ) : ℚ) = 8 ∧
    (close_calc 100.5 110 1 2.8).net_profit ≠ ((settle_all_floored 100.5 110 1 2.8 : ℤ) : ℚ) ∧
    ¬ ∃ z : ℤ, (close_calc 100.5 110 1 2.8).net_profit = (z : ℚ) := by
  have h1 : (close_calc 100.5 110 1 2.8).net_profit = 15 / 2 := by
    norm_num [close_calc, truncQ]
  have h2 : ((settle_all_floored 100.5 110 1 2.8 : ℤ) : ℚ) = 8 := by
    norm_num [settle_all_floored, truncQ]
  refine ⟨h1, h2, by rw [h1, h2]; norm_num, ?_⟩
  rintro ⟨z, hz⟩
  rw [h1] at hz
  have hq : (15 : ℚ) = 2 * (z : ℚ) := by linarith
  have hi : (15 : ℤ) = 2 * z := by exact_mod_cast hq
  omega

/-- C2 amended: the fees and the tax are truncated to integer units before
combination, and in the realized close the sell notional is truncated, but
the buy notional — and, in the unrealized computation, both the market
value and the cost — enter the combination untruncated; consequently the
net profit is an integer whenever those untruncated notionals are whole,
and can be fractional otherwise. -/
theorem C2_amended :
    (∀ (bp sp d : ℚ) (sq : ℤ), (∃ z : ℤ, bp * (sq : ℚ) = (z : ℚ)) →
      ((close_calc bp sp sq d).net_profit).den = 1) ∧
    (∀ cp q bp d : ℚ, (∃ z : ℤ, cp * q = (z : ℚ)) → (∃ z : ℤ, bp * q = (z : ℚ)) →
      ((unrealized cp q bp d).net_profit).den = 1) := by
  constructor
  · rintro bp sp d sq ⟨z, hz⟩
    have h : (close_calc bp sp sq d).net_profit =
        (((close_calc bp sp sq d).sell_revenue - (close_calc bp sp sq d).sell_fee -
          (close_calc bp sp sq d).tax - z - (close_calc bp sp sq d).buy_fee : ℤ) : ℚ) := by
      rw [close_calc_net, hz]
      push_cast
      ring
    rw [h, Rat.den_intCast]
  · rintro cp q bp d ⟨z1, hz1⟩ ⟨z2, hz2⟩
    have h : (unrealized cp q bp d).net_profit =
        ((z1 - (unrealized cp q bp d).sell_fee - (unrealized cp q bp d).tax - z2 -
          (unrealized cp q bp d).buy_fee : ℤ) : ℚ) := by
      rw [unrealized_net, hz1, hz2]
      push_cast
      ring
    rw [h, Rat.den_intCast]

/-- Witness for C2 amended: both net-profit computations yield an integer
at the whole-notional example inputs. -/
theorem C2_amended_witness :
    ((close_calc 100 110 1000 2.8).net_profit).den = 1 ∧
    ((unrealized 96 1000 100 2.8).net_profit).den = 1 :=
  ⟨C2_amended.1 100 110 2.8 1000 ⟨100000, by norm_num⟩,
   C2_amended.2 96 1000 100 2.8 ⟨96000, by norm_num⟩ ⟨100000, by norm_num⟩⟩

/-- C3: closing K of Q shares (0 < K < Q) of an open lot leaves the
original lot open with quantity Q−K, and prepends exactly one new closed
lot with quantity K, the fresh identifier, the original's symbol,
strategy, entry price, discount rate and open date (not the exit date),
exit fields populated and note cleared; K + (Q−K) = Q. -/
theorem C3_partial_close_split (df : List Row) (sid sdate nid : String) (sp : ℚ)
    (sq Q : ℤ) (target : Row)
    (hfind : df.find? (fun r => r.id == sid) = some target)
    (hopen : target.status = Cell.str "持倉中")
    (hq : target.shares = (Q : ℚ))
    (hbd : strBlank target.buyDate.asString = true → target.buyDate = target.date)
    (hfresh : ∀ r ∈ df, r.id ≠ nid)
    (_h0 : 0 < sq) (hlt : sq < Q) :
    confirm_sell df sid sp sq sdate nid =
      some (split_close_row target nid sp sq sdate ::
        replace_first (fun r => r.id == sid) { target with shares := ((Q - sq : ℤ) : ℚ) } df) ∧
    (split_close_row target nid sp sq sdate).id = nid ∧
    (split_close_row target nid sp sq sdate).shares = (sq : ℚ) ∧
    (split_close_row target nid sp sq sdate).status = Cell.str "已平倉" ∧
    (split_close_row target nid sp sq sdate).symbol = target.symbol ∧
    (split_close_row target nid sp sq sdate).strategy = target.strategy ∧
    (split_close_row target nid sp sq sdate).buyPrice = target.buyPrice ∧
    (split_close_row target nid sp sq sdate).discount = target.discount ∧
    (split_close_row target nid sp sq sdate).buyDate = target.buyDate ∧
    (split_close_row target nid sp sq sdate).date = Cell.str sdate ∧
    (split_close_row target nid sp sq sdate).sellPrice = Cell.num sp ∧
    (split_close_row target nid sp sq sdate).profit =
      Cell.num (close_calc target.buyPrice sp sq target.discount).net_profit ∧
    (split_close_row target nid sp sq sdate).note = Cell.str "" ∧
    ({ target with shares := ((Q - sq : ℤ) : ℚ) } : Row).status = Cell.str "持倉中" ∧
    (∀ r ∈ replace_first (fun r => r.id == sid) { target with shares := ((Q - sq : ℤ) : ℚ) } df,
      r.id ≠ nid) ∧
    (replace_first (fun r => r.id == sid) { target with shares := ((Q - sq : ℤ) : ℚ) } df).length
      = df.length ∧
    sq + (Q - sq) = Q := by
  have hQ : truncQ target.shares = Q := by rw [hq, truncQ_intCast]
  have hobd : backfill_buy_date target = target.buyDate := backfill_buy_date_eq target hbd
  refine ⟨?_, rfl, rfl, rfl, rfl, rfl, rfl, rfl, hobd, rfl, rfl, rfl, rfl, hopen, ?_, ?_, by ring⟩
  · simp only [confirm_sell, hfind, hQ]
    rw [if_neg (by omega : ¬ sq = Q)]
  · intro r hr
    rcases mem_replace_first _ _ r df hr with h | h
    · subst h
      exact hfresh target (List.mem_of_find?_eq_some hfind)
    · exact hfresh r h
  · exact replace_first_length _ _ df

/-- Witness for C3: the partial close of 400 of 1000 shares succeeds on a
concrete snapshot. -/
theorem C3_partial_close_split_witness :
    (confirm_sell [lotC1] "1001" 110 400 "2024-03-01" "1002").isSome = true := by
  have h := C3_partial_close_split [lotC1] "1001" "2024-03-01" "1002" 110 400 1000 lotC1
    rfl rfl (by norm_num [lotC1]) (by decide) (by decide) (by decide) (by decide)
  rw [h.1]
  rfl

/-- C4: closing an open lot with exit quantity equal to its quantity
leaves exactly one lot in the snapshot for that identity, now closed,
with all attributes unchanged except status, exit price, net profit and
exit date. -/
theorem C4_full_close_frame (df : List Row) (sid sdate nid : String) (sp : ℚ)
    (Q : ℤ) (target : Row)
    (hfind : df.find? (fun r => r.id == sid) = some target)
    (_hopen : target.status = Cell.str "持倉中")
    (hq : target.shares = (Q : ℚ))
    (hbd : strBlank target.buyDate.asString = true → target.buyDate = target.date)
    (huniq : df.countP (fun r => r.id == sid) = 1) :
    confirm_sell df sid sp Q sdate nid =
      some (replace_first (fun r => r.id == sid) (full_close_row target sp Q sdate) df) ∧
    (replace_first (fun r => r.id == sid) (full_close_row target sp Q sdate) df).length
      = df.length ∧
    (replace_first (fun r => r.id == sid) (full_close_row target sp Q sdate) df).countP
      (fun r => r.id == sid) = 1 ∧
    (replace_first (fun r => r.id == sid) (full_close_row target sp Q sdate) df).filter
      (fun r => !(r.id == sid)) = df.filter (fun r => !(r.id == sid)) ∧
    (full_close_row target sp Q sdate).id = target.id ∧
    (full_close_row target sp Q sdate).shares = target.shares ∧
    (full_close_row target sp Q sdate).buyDate = target.buyDate ∧
    (full_close_row target sp Q sdate).strategy = target.strategy ∧
    (full_close_row target sp Q sdate).symbol = target.symbol ∧
    (full_close_row target sp Q sdate).buyPrice = target.buyPrice ∧
    (full_close_row target sp Q sdate).stopLoss = target.stopLoss ∧
    (full_close_row target sp Q sdate).discount = target.discount ∧
    (full_close_row target sp Q sdate).note = target.note ∧
    (full_close_row target sp Q sdate).status = Cell.str "已平倉" ∧
    (full_close_row target sp Q sdate).sellPrice = Cell.num sp ∧
    (full_close_row target sp Q sdate).date = Cell.str sdate := by
  have hQ : truncQ target.shares = Q := by rw [hq, truncQ_intCast]
  have hmatch : ((full_close_row target sp Q sdate).id == sid) = true := by
    have := List.find?_some hfind
    simpa [full_close_row] using this
  have hobd : backfill_buy_date target = target.buyDate := backfill_buy_date_eq target hbd
  refine ⟨?_, replace_first_length _ _ df, ?_, ?_, rfl, rfl, hobd, rfl, rfl, rfl, rfl, rfl,
    rfl, rfl, rfl, rfl⟩
  · simp [confirm_sell, hfind, hQ]
  · rw [countP_replace_first _ _ hmatch df, huniq]
  · exact filter_not_replace_first _ _ hmatch df

/-- Witness for C4: the full close of a 1000-share lot succeeds on a
concrete snapshot and keeps it a one-lot snapshot. -/
theorem C4_full_close_frame_witness :
    (confirm_sell [lotC1] "1001" 110 1000 "2024-03-01" "1002").isSome = true := by
  have h := C4_full_close_frame [lotC1] "1001" "2024-03-01" "1002" 110 1000 lotC1
    rfl rfl (by norm_num [lotC1]) (by decide) (by decide)
  rw [h.1]
  rfl

/-- A second open lot: 2000 shares bought at 90. -/
def lotC7 : Row :=
  { id := "1003", date := .str "2024-01-03", buyDate := .str "2024-01-03",
    strategy := .str "突破追價", symbol := .str "2317 鴻海",
    buyPrice := 90, stopLoss := 0, shares := 2000, status := .str "持倉中",
    sellPrice := .str "", profit := .str "", discount := 2.8, note := .str "" }

/-- Two open-position commands issued within the same wall-clock
millisecond. -/
def two_opens_same_ms : List Row :=
  open_position
    (open_position [] 1700000000000 "2024-01-02" "Alpha-Swing" "2330 台積電" 100 0 1000 2.8)
    1700000000000 "2024-01-02" "突破追價" "2317 鴻海" 90 0 2000 2.8

/-- C5 counterexample: two open-position calls within the same wall-clock
millisecond generate the same identifier, so the resulting snapshot holds
two rows with identical IDs — identifiers do collide for rapid successive
calls within one millisecond. -/
theorem C5_counterexample :
    two_opens_same_ms.map Row.id = ["1700000000000", "1700000000000"] ∧
    ¬ (two_opens_same_ms.map Row.id).Nodup := by
  constructor
  · rfl
  · decide

/-- C5 amended: an identifier is a pure function of the wall-clock
millisecond of its generating call — identifiers of two calls coincide
exactly when the two calls read the same millisecond, so they are unique
across distinct milliseconds but collide within one millisecond. -/
theorem C5_amended_id_collision (t1 t2 : ℕ) : new_id t1 = new_id t2 ↔ t1 = t2 :=
  ⟨new_id_injective t1 t2, fun h => by rw [h]⟩

lemma status_signal_breach (s c n : ℚ) (h : s > 0 ∧ c < s) :
    status_signal s c n = "🔴 破止損" := by
  rw [status_signal, if_pos h]

lemma status_signal_profit (s c n : ℚ) (h : ¬ (s > 0 ∧ c < s)) (hn : n > 0) :
    status_signal s c n = "💰 獲利中" := by
  rw [status_signal, if_neg h, if_pos hn]

lemma status_signal_normal (s c n : ℚ) (h : ¬ (s > 0 ∧ c < s)) (hn : ¬ n > 0) :
    status_signal s c n = "🟢" := by
  rw [status_signal, if_neg h, if_neg hn]

/-- C6: the risk monitor resolves the current price from the quote mapping
keyed by the numeric prefix of the symbol, falling back to the entry price
when no quote is available; it signals breach exactly when stop-loss > 0
and current price < stop-loss, otherwise profit exactly when the
unrealized net P/L (hypothetical full close, fees and tax included) is
positive, otherwise normal. -/
theorem C6_risk_monitor (prices : List (String × ℚ)) (row : Row) :
    (extract_code row.symbol.asString = none →
      resolve_price prices row.symbol.asString row.buyPrice = row.buyPrice) ∧
    (∀ c, extract_code row.symbol.asString = some c → prices.lookup c = none →
      resolve_price prices row.symbol.asString row.buyPrice = row.buyPrice) ∧
    (∀ c p, extract_code row.symbol.asString = some c → prices.lookup c = some p →
      resolve_price prices row.symbol.asString row.buyPrice = p) ∧
    (position_status prices row = "🔴 破止損" ↔
      (row.stopLoss > 0 ∧ resolve_price prices row.symbol.asString row.buyPrice < row.stopLoss)) ∧
    (¬ (row.stopLoss > 0 ∧ resolve_price prices row.symbol.asString row.buyPrice < row.stopLoss) →
      (position_status prices row = "💰 獲利中" ↔
        (unrealized (resolve_price prices row.symbol.asString row.buyPrice) row.shares
          row.buyPrice row.discount).net_profit > 0)) ∧
    (¬ (row.stopLoss > 0 ∧ resolve_price prices row.symbol.asString row.buyPrice < row.stopLoss) →
      ¬ (unrealized (resolve_price prices row.symbol.asString row.buyPrice) row.shares
          row.buyPrice row.discount).net_profit > 0 →
      position_status prices row = "🟢") := by
  have hps : position_status prices row =
      status_signal row.stopLoss (resolve_price prices row.symbol.asString row.buyPrice)
        (unrealized (resolve_price prices row.symbol.asString row.buyPrice) row.shares
          row.buyPrice row.discount).net_profit := rfl
  refine ⟨?_, ?_, ?_, ?_, ?_, ?_⟩
  · intro h
    simp [resolve_price, h]
  · intro c hc hl
    simp [resolve_price, hc, hl]
  · intro c p hc hl
    simp [resolve_price, hc, hl]
  · constructor
    · intro h
      by_contra hb
      by_cases hn : (unrealized (resolve_price prices row.symbol.asString row.buyPrice)
          row.shares row.buyPrice row.discount).net_profit > 0
      · rw [hps, status_signal_profit _ _ _ hb hn] at h
        exact absurd h (by decide)
      · rw [hps, status_signal_normal _ _ _ hb hn] at h
        exact absurd h (by decide)
    · intro hb
      rw [hps, status_signal_breach _ _ _ hb]
  · intro hb
    constructor
    · intro h
      by_contra hn
      rw [hps, status_signal_normal _ _ _ hb hn] at h
      exact absurd h (by decide)
    · intro hn
      rw [hps, status_signal_profit _ _ _ hb hn]
  · intro hb hn
    rw [hps, status_signal_normal _ _ _ hb hn]

/-- An open lot with stop-loss 95 for the never-breach-at-96 scenario. -/
def lotC6 : Row :=
  { id := "2001", date := .str "2024-01-02", buyDate := .str "2024-01-02",
    strategy := .str "Alpha-Swing", symbol := .str "2330 台積電",
    buyPrice := 100, stopLoss := 95, shares := 1000, status := .str "持倉中",
    sellPrice := .str "", profit := .str "", discount := 2.8, note := .str "" }

/-- Witness for C6: a lot with stop-loss 95 and a current quote of 96 is
never reported as a breach. -/
theorem C6_risk_monitor_witness :
    position_status [("2330", 96)] lotC6 ≠ "🔴 破止損" := by
  intro hc
  have hres : resolve_price [("2330", 96)] lotC6.symbol.asString lotC6.buyPrice = 96 := by
    rw [resolve_price]
    simp only [show extract_code (Cell.asString lotC6.symbol) = some "2330" from by decide]
    simp [List.lookup]
  have h := ((C6_risk_monitor [("2330", 96)] lotC6).2.2.2.1).mp hc
  rw [hres] at h
  have h95 : lotC6.stopLoss = 95 := rfl
  rw [h95] at h
  norm_num at h

/-- C7 counterexample: `save_data` clears the sheet and only then writes;
the persisted state between the two calls is the empty snapshot, which is
neither the old snapshot nor the new one — a failure of the update call
after a successful clear leaves the store in a partial state. -/
theorem C7_counterexample :
    ([] : List Row) ∈ store_states [lotC1] (save_data_ops [lotC1, lotC7]) ∧
    ([] : List Row) ≠ [lotC1] ∧
    ([] : List Row) ≠ [lotC1, lotC7] := by
  refine ⟨?_, by simp, by simp⟩
  simp [store_states, save_data_ops, List.scanl, run_op]

/-- C7 amended: a command's write is clear-then-update; besides the old
and the new snapshot, the only persisted state the store passes through is
the empty snapshot left behind when the update fails after the clear. -/
theorem C7_amended_save_states (init new s : List Row)
    (hs : s ∈ store_states init (save_data_ops new)) :
    s = init ∨ s = [] ∨ s = new := by
  simp only [store_states, save_data_ops, List.scanl, run_op] at hs
  simpa using hs

/-- Witness for C7 amended: applied to the concrete empty intermediate
state. -/
theorem C7_amended_save_states_witness :
    ([] : List Row) = [lotC1] ∨ ([] : List Row) = [] ∨ ([] : List Row) = [lotC7] :=
  C7_amended_save_states [lotC1] [lotC7] []
    (by simp [store_states, save_data_ops, List.scanl, run_op])

/-- A raw sheet row for a table whose header lacks several expected
columns (手續費折數 among them). -/
def rowC8 : String → Cell := fun c =>
  if c = "ID" then .str "7"
  else if c = "日期" then .str "2024-04-01"
  else .str "持倉中"

/-- A raw table missing the 手續費折數, 賣出價 and 損益 columns (among
others). -/
def tblC8 : Table := { header := ["ID", "日期", "狀態"], rows := [rowC8] }

/-- C8 counterexample: on a table whose header lacks the numeric
手續費折數 column, the load backfills it with 3 (the 3-折 fail-safe), not
0; and the missing numeric 賣出價 and 損益 columns stay the empty string
rather than becoming 0. -/
theorem C8_counterexample :
    (load_data tblC8).map Row.discount = [3] ∧
    (3 : ℚ) ≠ 0 ∧
    (load_data tblC8).map Row.sellPrice = [Cell.str ""] ∧
    (load_data tblC8).map Row.profit = [Cell.str ""] := by decide

/-- C8 amended: a column absent from the header is first backfilled with
the empty string; the numeric coercions then give 0 for a missing 買入價,
止損價 or 股數 but 3 for a missing 手續費折數, while a missing 賣出價 or
損益 (and every text column) keeps the empty string; a missing 買入日期
is backfilled from the 日期 column. -/
theorem C8_amended_defaults (t : Table) (r : Row) (hr : r ∈ load_data t) :
    ("ID" ∉ t.header → r.id = "") ∧
    ("日期" ∉ t.header → r.date = Cell.str "") ∧
    ("策略" ∉ t.header → r.strategy = Cell.str "") ∧
    ("代號" ∉ t.header → r.symbol = Cell.str "") ∧
    ("買入價" ∉ t.header → r.buyPrice = 0) ∧
    ("止損價" ∉ t.header → r.stopLoss = 0) ∧
    ("股數" ∉ t.header → r.shares = 0) ∧
    ("狀態" ∉ t.header → r.status = Cell.str "") ∧
    ("賣出價" ∉ t.header → r.sellPrice = Cell.str "") ∧
    ("損益" ∉ t.header → r.profit = Cell.str "") ∧
    ("手續費折數" ∉ t.header → r.discount = 3) ∧
    ("心得" ∉ t.header → r.note = Cell.str "") ∧
    ("買入日期" ∉ t.header → r.buyDate = r.date) := by
  obtain ⟨raw, _hraw, rfl⟩ := List.mem_map.mp hr
  refine ⟨?_, ?_, ?_, ?_, ?_, ?_, ?_, ?_, ?_, ?_, ?_, ?_, ?_⟩ <;> intro h <;>
    simp [load_row, getcol, h, toNumeric_blank, Cell.asString, strBlank]

/-- Witness for C8 amended: the concrete short-header table gets discount
3 and a blank 賣出價 cell. -/
theorem C8_amended_defaults_witness :
    (load_row tblC8 rowC8).discount = 3 ∧ (load_row tblC8 rowC8).sellPrice = Cell.str "" := by
  have h := C8_amended_defaults tblC8 (load_row tblC8 rowC8)
    (show _ ∈ load_data tblC8 from List.mem_singleton_self _)
  exact ⟨h.2.2.2.2.2.2.2.2.2.2.1 (by decide), h.2.2.2.2.2.2.2.2.1 (by decide)⟩

/-- A closed lot: no open lot carries its identifier. -/
def lotC9 : Row :=
  { id := "777", date := .str "2024-02-02", buyDate := .str "2024-01-02",
    strategy := .str "Alpha-Swing", symbol := .str "2330 台積電",
    buyPrice := 50, stopLoss := 0, shares := 3, status := .str "已平倉",
    sellPrice := .num 60, profit := .num 20, discount := 3, note := .str "" }

/-- C9 counterexample: on a snapshot whose only lot with ID 777 is
already closed (so no open lot matches), the close operation still finds
the row — the lookup is by ID alone, ignoring status — and writes a
modified snapshot instead of failing with no write. -/
theorem C9_counterexample :
    (∀ r ∈ [lotC9], ¬ (r.status = Cell.str "持倉中" ∧ r.id = "777")) ∧
    (confirm_sell [lotC9] "777" 60 3 "2024-03-01" "888").isSome = true ∧
    (confirm_sell [lotC9] "777" 60 3 "2024-03-01" "888").map (List.map Row.date) =
      some [Cell.str "2024-03-01"] ∧
    lotC9.date ≠ Cell.str "2024-03-01" := by
  have h3 : truncQ (3 : ℚ) = 3 := by
    rw [show (3 : ℚ) = ((3 : ℤ) : ℚ) by norm_num, truncQ_intCast]
  have hfind : [lotC9].find? (fun r => r.id == "777") = some lotC9 := rfl
  have hc : confirm_sell [lotC9] "777" 60 3 "2024-03-01" "888" =
      some [full_close_row lotC9 60 3 "2024-03-01"] := by
    simp [confirm_sell, hfind, h3, replace_first, lotC9]
  refine ⟨by decide, ?_, ?_, by decide⟩
  · rw [hc]
    rfl
  · rw [hc]
    rfl

/-- C9 amended: the close operation leaves the snapshot unwritten exactly
when no lot of any status matches the requested ID (and it does so
silently, with no error surfaced); whenever some lot matches — open or
closed — a write is performed. -/
theorem C9_amended_lookup (df : List Row) (sid sdate nid : String) (sp : ℚ) (sq : ℤ) :
    ((∀ r ∈ df, (r.id == sid) = false) → confirm_sell df sid sp sq sdate nid = none) ∧
    (∀ target, df.find? (fun r => r.id == sid) = some target →
      (confirm_sell df sid sp sq sdate nid).isSome = true) := by
  constructor
  · intro h
    have hn : df.find? (fun r => r.id == sid) = none :=
      List.find?_eq_none.mpr (fun x hx => by simp [h x hx])
    simp [confirm_sell, hn]
  · intro target ht
    by_cases hq : sq = truncQ target.shares <;> simp [confirm_sell, ht, hq]

/-- Witness for C9 amended: a close on an ID absent from the snapshot
writes nothing. -/
theorem C9_amended_lookup_witness :
    confirm_sell [lotC9] "nope" 60 3 "2024-03-01" "888" = none :=
  (C9_amended_lookup [lotC9] "nope" "2024-03-01" "888" 60 3).1 (by decide)

/-- A raw sheet row whose 日期 and 買入日期 cells are both blank. -/
def rowC10 : String → Cell := fun c =>
  if c = "ID" then .str "5"
  else if c = "狀態" then .str "持倉中"
  else if c = "股數" then .num 10
  else if c = "買入價" then .num 100
  else if c = "手續費折數" then .num 3
  else .str ""

/-- A raw table holding `rowC10`, with all its columns present. -/
def tblC10 : Table :=
  { header := ["ID", "日期", "買入日期", "狀態", "股數", "買入價", "手續費折數"],
    rows := [rowC10] }

/-- The row `load_data` produces from `rowC10`. -/
def c10loaded : Row :=
  { id := "5", date := .str "", buyDate := .str "", strategy := .str "",
    symbol := .str "", buyPrice := 100, stopLoss := 0, shares := 10,
    status := .str "持倉中", sellPrice := .str "", profit := .str "",
    discount := 3, note := .str "" }

/-- C10 counterexample: a lot loaded with blank 日期 and 買入日期 that is
then fully closed reaches the written snapshot with a blank open date next
to a set (nonblank) date field — the backfill uses the original row's
日期, which was itself blank, while the close sets 日期 to the sell date. -/
theorem C10_counterexample :
    load_data tblC10 = [c10loaded] ∧
    strBlank c10loaded.buyDate.asString = true ∧
    confirm_sell [c10loaded] "5" 60 10 "2024-05-05" "9" =
      some [full_close_row c10loaded 60 10 "2024-05-05"] ∧
    strBlank (full_close_row c10loaded 60 10 "2024-05-05").buyDate.asString = true ∧
    strBlank (full_close_row c10loaded 60 10 "2024-05-05").date.asString = false := by
  have h10 : truncQ (10 : ℚ) = 10 := by
    rw [show (10 : ℚ) = ((10 : ℤ) : ℚ) by norm_num, truncQ_intCast]
  have hfind : [c10loaded].find? (fun r => r.id == "5") = some c10loaded := rfl
  refine ⟨by decide, by decide, ?_, by decide, by decide⟩
  simp [confirm_sell, hfind, h10, replace_first, c10loaded]

/-- C10 amended: the load backfills a blank 買入日期 from 日期, so a
loaded row has a blank open date only when its date field is blank too;
the close backfills the open date through the original row's 日期, which
yields a nonblank open date exactly when that original date field (or the
open date itself) was nonblank — when both were blank, the written closed
row keeps a blank open date while its date field is set to the sell date. -/
theorem C10_amended_backfill :
    (∀ t : Table, ∀ r ∈ load_data t,
      strBlank r.buyDate.asString = true → strBlank r.date.asString = true) ∧
    (∀ target : Row, strBlank target.date.asString = false →
      strBlank (backfill_buy_date target).asString = false) := by
  constructor
  · intro t r hr hb
    obtain ⟨raw, _h, rfl⟩ := List.mem_map.mp hr
    by_cases hraw : strBlank (getcol t raw "買入日期").asString = true
    · simpa [load_row, hraw] using hb
    · rw [show (load_row t raw).buyDate = getcol t raw "買入日期" by
        simp [load_row, hraw]] at hb
      exact absurd hb hraw
  · intro target h
    unfold backfill_buy_date
    by_cases hb : strBlank target.buyDate.asString = true
    · rw [if_pos hb]
      exact h
    · rw [if_neg hb]
      simpa using hb

/-- Witness for C10 amended: the blank-date row keeps the invariant at
load, and a nonblank-date lot gets a nonblank backfilled open date. -/
theorem C10_amended_backfill_witness :
    strBlank (load_row tblC10 rowC10).date.asString = true ∧
    strBlank (backfill_buy_date lotC1).asString = false :=
  ⟨C10_amended_backfill.1 tblC10 (load_row tblC10 rowC10)
      (show _ ∈ load_data tblC10 from List.mem_singleton_self _) (by decide),
    C10_amended_backfill.2 lotC1 (by decide)⟩

end StockJournal
